import Mathlib

/-!
Verification development for the realtime video-coaching path of the
PhotoPal server (`src/app.py`).  The embedding below translates the
WebRTC analysis loop (`recv_loop`), the track/datachannel handlers and
the `/offer` signaling route into executable Lean definitions; machine
floats become exact rationals, and the stateful throttle becomes
explicit state passing over lists of clock timestamps.
-/

namespace PhotoPal

/-- Tip string for the well-exposed band (app.py line 140). -/
def niceTip : String := "Nice base exposure."

/-- Tip string for the too-dark band (app.py line 142). -/
def darkTip : String := "Scene a bit dark—step closer to window/open shade or raise ISO."

/-- Tip string for the too-bright band (app.py line 144). -/
def brightTip : String := "Highlights strong—turn 10–15° or find softer light."

/-- Horizon-leveling suffix appended when the tilt exceeds 7° (app.py line 147). -/
def tiltSuffix : String := " Horizon looks tilted; level the phone slightly."

/-- Base exposure tip selection (app.py lines 139-145):
`"Nice..." if 0.45 <= luma <= 0.65 else ("Scene..." if luma < 0.45 else "Highlights...")`. -/
def baseTip (luma : ℚ) : String :=
  if 0.45 ≤ luma ∧ luma ≤ 0.65 then niceTip
  else if luma < 0.45 then darkTip
  else brightTip

/-- Full tip: the base tip, with the horizon suffix appended when
`tilt_deg > 7` (app.py lines 146-147). -/
def fullTip (luma tilt : ℚ) : String :=
  if 7 < tilt then baseTip luma ++ tiltSuffix else baseTip luma

/-- Mean grayscale intensity normalized by 255 (app.py line 120):
`luma = float(gray.mean()) / 255.0`.  The pixel buffer is modelled as the
flattened list of grayscale intensities. -/
def lumaOf (gray : List ℕ) : ℚ :=
  ((gray.sum : ℚ) / gray.length) / 255

/-- Radians-to-degrees conversion as written in the source (app.py line 129):
`deg = theta * 180 / 3.14159`. -/
def degOf (theta : ℚ) : ℚ := theta * 180 / 3.14159

/-- Per-line deviation from horizontal, at the degree level (app.py line 131):
`tilt = min(abs(deg - 0), abs(deg - 180), abs(deg - 360))`. -/
def tiltFromDeg (deg : ℚ) : ℚ :=
  min (min |deg - 0| |deg - 180|) |deg - 360|

/-- Per-line deviation from horizontal of a Hough angle θ (app.py lines 129-131). -/
def lineTilt (theta : ℚ) : ℚ := tiltFromDeg (degOf theta)

/-- Tilt heuristic (app.py lines 125-134).  `cv.HoughLines` returns `None`
when no line is detected, else the detected lines strongest-first; the code
keeps `lines[:8, 0]`, maps each θ to its deviation, and averages. -/
def tilt_deg (lines : Option (List ℚ)) : ℚ :=
  match lines with
  | none => 0
  | some thetas =>
      let angs := (thetas.take 8).map lineTilt
      if angs.isEmpty then 0 else angs.sum / angs.length

/-- One decoded video frame as the analysis loop sees it: the grayscale
pixel buffer and the optional list of detected Hough angles. -/
structure Frame where
  gray  : List ℕ
  lines : Option (List ℚ)
deriving DecidableEq

/-- Heuristic Result: the per-frame values the loop derives (app.py lines 120-147). -/
structure HeuristicResult where
  luma : ℚ
  tilt : ℚ
  tip  : String
deriving DecidableEq

/-- One pass of the analysis body over a decoded frame (app.py lines 116-147). -/
def analyzeFrame (f : Frame) : HeuristicResult :=
  let luma := lumaOf f.gray
  let t := tilt_deg f.lines
  { luma := luma, tilt := t, tip := fullTip luma t }

/-- Per-session throttle state: the `last_sent` clock value of `recv_loop`
(app.py line 113) and whether `on_datachannel` has recorded a tips channel
(app.py lines 97-103). -/
structure ThrottleState where
  last_sent : ℚ
  channelAttached : Bool
deriving DecidableEq

/-- Fresh session state: `tips_channel = None` (line 97), `last_sent = 0.0`
(line 113). -/
def initThrottle : ThrottleState := { last_sent := 0, channelAttached := false }

/-- One throttle decision (app.py lines 137-154):
`if tips_channel and (now - last_sent) > 0.5: ...send...; last_sent = now`.
Returns whether the advisory was sent and the updated state. -/
def offerStep (s : ThrottleState) (now : ℚ) : Bool × ThrottleState :=
  if s.channelAttached ∧ 0.5 < now - s.last_sent then
    (true, { s with last_sent := now })
  else (false, s)

/-- Clock times at which an advisory is actually sent, when the loop's
iterations complete at the given (nondecreasing) clock times. -/
def sentTimes (s : ThrottleState) : List ℚ → List ℚ
  | [] => []
  | t :: ts =>
      if (offerStep s t).1 then t :: sentTimes (offerStep s t).2 ts
      else sentTimes (offerStep s t).2 ts

/-- The analysis loop over a list of (frame, clock time) events: every frame
is analyzed; the result is sent only when the throttle fires.  Returns
(all Heuristic Results, sent Advisory Messages). -/
def recvRun (s : ThrottleState) :
    List (Frame × ℚ) → List HeuristicResult × List HeuristicResult
  | [] => ([], [])
  | (f, t) :: rest =>
      let r := analyzeFrame f
      let step := offerStep s t
      let tail := recvRun step.2 rest
      (r :: tail.1, if step.1 then r :: tail.2 else tail.2)

/-- Ten frame-completion times inside a 0.3 s window (the spec's burst
scenario). -/
def burstTimes : List ℚ :=
  [100, 100.03, 100.06, 100.09, 100.12, 100.15, 100.18, 100.21, 100.24, 100.27]

/-- A frame as received from the track before decoding: decoding and analysis
may raise (`frame.to_ndarray` or the cv calls on a malformed frame). -/
inductive RawFrame
  | malformed
  | ok (f : Frame)
deriving DecidableEq

/-- Whether a raw frame decodes without raising. -/
def RawFrame.isOk : RawFrame → Bool
  | RawFrame.malformed => false
  | RawFrame.ok _ => true

/-- Heuristic Results produced by `recv_loop` (app.py lines 112-156) on a raw
frame sequence.  The loop body has no try/except: the first frame whose
analysis raises propagates the exception out of the `while True` loop,
ending the task, so no later frame is analyzed. -/
def recvResults : List RawFrame → List HeuristicResult
  | [] => []
  | RawFrame.malformed :: _ => []
  | RawFrame.ok f :: rest => analyzeFrame f :: recvResults rest

/-- Concrete input for the loop-abort behaviour: a malformed frame followed by
a well-formed one. -/
def badThenGood : List RawFrame := [RawFrame.malformed, RawFrame.ok ⟨[], none⟩]

/-- Per-session track bookkeeping: how many analyzer loops were spawned and
how many tracks were drained into a MediaBlackhole. -/
structure SessionTracks where
  loops : ℕ
  drained : ℕ
deriving DecidableEq

/-- No tracks attached yet. -/
def initTracks : SessionTracks := ⟨0, 0⟩

/-- The `on_track` handler (app.py lines 105-156): a non-video track is routed
to a MediaBlackhole; a video track unconditionally spawns a new `recv_loop`
task via `asyncio.create_task` — there is no check against an already-bound
track. -/
def on_track (s : SessionTracks) (kind : String) : SessionTracks :=
  if kind ≠ "video" then { s with drained := s.drained + 1 }
  else { s with loops := s.loops + 1 }

/-- The session's track handler applied to a sequence of incoming tracks. -/
def runTracks (s : SessionTracks) (kinds : List String) : SessionTracks :=
  kinds.foldl on_track s

/-- One parsed signaling request, abstracted to whether aiortc's
`setRemoteDescription` accepts the session description
(it raises on malformed SDP). -/
structure OfferRequest where
  sdpWellFormed : Bool
deriving DecidableEq

/-- Outcome of the `_handle_offer` coroutine. -/
inductive HandshakeOutcome
  | answer
  | raised
deriving DecidableEq

/-- `_handle_offer` (app.py lines 90-164): builds the peer connection and calls
`setRemoteDescription`; nothing in the coroutine catches a negotiation
failure, so a malformed description raises. -/
def handle_offer (req : OfferRequest) : HandshakeOutcome :=
  if req.sdpWellFormed then HandshakeOutcome.answer else HandshakeOutcome.raised

/-- HTTP status of the `/offer` route (app.py lines 173-189): the route body
has no try/except around the negotiation, so an exception from
`_handle_offer` propagates to Flask, which answers 500 Internal Server
Error; on success the SDP answer is returned with 200. -/
def offerStatus (req : OfferRequest) : ℕ :=
  match handle_offer req with
  | HandshakeOutcome.answer => 200
  | HandshakeOutcome.raised => 500

/-- 4xx statuses are client errors. -/
def isClientError (status : ℕ) : Bool := 400 ≤ status ∧ status < 500

end PhotoPal

namespace PhotoPal

/-- C1: with luma the normalized mean grayscale intensity, the base tip is
chosen by exactly one of three mutually exclusive and exhaustive bands:
luma ∈ [0.45, 0.65] yields the well-exposed tip, luma < 0.45 the too-dark
tip, and luma > 0.65 the too-bright tip. -/
theorem exposure_bands_exclusive_exhaustive (luma : ℚ) :
    ((0.45 ≤ luma ∧ luma ≤ 0.65) ∨ luma < 0.45 ∨ 0.65 < luma)
    ∧ ¬((0.45 ≤ luma ∧ luma ≤ 0.65) ∧ luma < 0.45)
    ∧ ¬((0.45 ≤ luma ∧ luma ≤ 0.65) ∧ 0.65 < luma)
    ∧ ¬(luma < 0.45 ∧ 0.65 < luma)
    ∧ ((0.45 ≤ luma ∧ luma ≤ 0.65) → baseTip luma = niceTip)
    ∧ (luma < 0.45 → baseTip luma = darkTip)
    ∧ (0.65 < luma → baseTip luma = brightTip) := by
  refine ⟨?_, ?_, ?_, ?_, ?_, ?_, ?_⟩
  · rcases lt_or_le luma 0.45 with h | h
    · exact Or.inr (Or.inl h)
    · rcases le_or_lt luma 0.65 with h2 | h2
      · exact Or.inl ⟨h, h2⟩
      · exact Or.inr (Or.inr h2)
  · rintro ⟨⟨h1, _⟩, h2⟩; linarith
  · rintro ⟨⟨_, h1⟩, h2⟩; linarith
  · rintro ⟨h1, h2⟩; linarith
  · intro h; simp [baseTip, h]
  · intro h
    have hn : ¬(0.45 ≤ luma ∧ luma ≤ 0.65) := by rintro ⟨h1, _⟩; linarith
    simp [baseTip, hn, h]
  · intro h
    have hn : ¬(0.45 ≤ luma ∧ luma ≤ 0.65) := by rintro ⟨_, h1⟩; linarith
    have hn2 : ¬(luma < 0.45) := by linarith
    simp [baseTip, hn, hn2]

/-- Witness for C1 at luma = 0.5 (well-exposed band). -/
theorem exposure_bands_witness :
    (0.45 ≤ (0.5 : ℚ) ∧ (0.5 : ℚ) ≤ 0.65) ∧ baseTip 0.5 = niceTip :=
  ⟨by norm_num, (exposure_bands_exclusive_exhaustive 0.5).2.2.2.2.1 (by norm_num)⟩

/-- C3: the horizon-leveling suffix is appended to the base tip exactly when
`tilt_deg > 7`; for `tilt_deg ≤ 7` the message is the bare base tip,
whichever exposure band was chosen. -/
theorem tilt_suffix_iff (luma tilt : ℚ) :
    (7 < tilt → fullTip luma tilt = baseTip luma ++ tiltSuffix)
    ∧ (tilt ≤ 7 → fullTip luma tilt = baseTip luma)
    ∧ (fullTip luma tilt = baseTip luma ++ tiltSuffix ↔ 7 < tilt) := by
  refine ⟨fun h => by simp [fullTip, h], fun h => by simp [fullTip, not_lt.mpr h], ?_, ?_⟩
  · intro heq
    by_contra hn
    rw [fullTip, if_neg hn] at heq
    have hlen := congrArg String.length heq
    rw [String.length_append] at hlen
    have hs : tiltSuffix.length ≠ 0 := by decide
    omega
  · intro h; simp [fullTip, h]

/-- Witness for C3 at luma = 0.5, tilt = 10. -/
theorem tilt_suffix_witness :
    fullTip 0.5 10 = baseTip 0.5 ++ tiltSuffix ∧ fullTip 0.5 3 = baseTip 0.5 :=
  ⟨(tilt_suffix_iff 0.5 10).1 (by norm_num), (tilt_suffix_iff 0.5 3).2.1 (by norm_num)⟩

end PhotoPal

namespace PhotoPal

/-- Shared helper: for a degree value in [0, 180), the three-reference
deviation collapses to `min deg (180 - deg)`, lies in [0, 90], and is
strictly below the distance to the 360° reference. -/
theorem tiltFromDeg_props (deg : ℚ) (h0 : 0 ≤ deg) (h1 : deg < 180) :
    tiltFromDeg deg = min deg (180 - deg)
    ∧ 0 ≤ tiltFromDeg deg ∧ tiltFromDeg deg ≤ 90
    ∧ tiltFromDeg deg < |deg - 360| := by
  have ha : |deg - 0| = deg := by rw [sub_zero]; exact abs_of_nonneg h0
  have hb : |deg - 180| = 180 - deg := by
    rw [abs_sub_comm]; exact abs_of_nonneg (by linarith)
  have hc : |deg - 360| = 360 - deg := by
    rw [abs_sub_comm]; exact abs_of_nonneg (by linarith)
  have hmin : min deg (180 - deg) ≤ 90 := by
    rcases le_total deg 90 with h | h
    · exact le_trans (min_le_left _ _) h
    · exact le_trans (min_le_right _ _) (by linarith)
  have heq : tiltFromDeg deg = min deg (180 - deg) := by
    rw [tiltFromDeg, ha, hb, hc, min_eq_left (by linarith [hmin] : min deg (180 - deg) ≤ 360 - deg)]
  refine ⟨heq, ?_, ?_, ?_⟩
  · rw [heq]; exact le_min h0 (by linarith)
  · rw [heq]; exact hmin
  · rw [heq, hc]; exact lt_of_le_of_lt hmin (by linarith)

/-- Shared helper: degree conversion maps θ ∈ [0, 3.14159) into [0, 180).
OpenCV's HoughLines with θ-step 3.14159/180 returns angles k·(3.14159/180)
for k = 0,…,179, all inside this interval. -/
theorem degOf_bounds (theta : ℚ) (h0 : 0 ≤ theta) (h1 : theta < 3.14159) :
    0 ≤ degOf theta ∧ degOf theta < 180 := by
  constructor
  · rw [degOf]; positivity
  · rw [degOf, div_lt_iff₀ (by norm_num)]
    nlinarith

/-- C9: for a line angle θ in the Hough range (degrees in [0, 180)), the
implemented three-reference deviation min(|deg−0|, |deg−180|, |deg−360|)
equals the simpler min(deg, 180−deg); the 360° reference never attains the
minimum, and the deviation lies in [0, 90]. -/
theorem three_reference_deviation_refines (deg : ℚ) (h0 : 0 ≤ deg) (h1 : deg < 180) :
    tiltFromDeg deg = min deg (180 - deg)
    ∧ min |deg - 0| |deg - 180| < |deg - 360|
    ∧ 0 ≤ tiltFromDeg deg ∧ tiltFromDeg deg ≤ 90 := by
  obtain ⟨heq, hlo, hhi, hne⟩ := tiltFromDeg_props deg h0 h1
  refine ⟨heq, ?_, hlo, hhi⟩
  have : min (min |deg - 0| |deg - 180|) |deg - 360| < |deg - 360| := by
    rw [← tiltFromDeg]; exact hne
  rcases min_lt_iff.mp this with h | h
  · exact h
  · exact absurd h (lt_irrefl _)

/-- Witness for C9 at deg = 30. -/
theorem three_reference_deviation_witness :
    tiltFromDeg 30 = min 30 (180 - 30) ∧ (0 : ℚ) ≤ tiltFromDeg 30 ∧ tiltFromDeg 30 ≤ 90 :=
  ⟨(three_reference_deviation_refines 30 (by norm_num) (by norm_num)).1,
   (three_reference_deviation_refines 30 (by norm_num) (by norm_num)).2.2⟩

end PhotoPal

namespace PhotoPal

/-- C2: `tilt_deg` is 0 when no lines are detected, and otherwise the mean of
the per-line deviations over at most the first 8 (strongest) lines, each
deviation being the minimum degree-distance to 0°/180°/360° and lying in
[0°, 90°] for angles in the Hough range. -/
theorem tilt_deg_mean_of_deviations (thetas : List ℚ)
    (hr : ∀ θ ∈ thetas, 0 ≤ θ ∧ θ < 3.14159) :
    tilt_deg none = 0
    ∧ tilt_deg (some []) = 0
    ∧ (thetas ≠ [] → tilt_deg (some thetas) =
        ((thetas.take 8).map lineTilt).sum / ((thetas.take 8).map lineTilt).length)
    ∧ (∀ θ ∈ thetas, 0 ≤ lineTilt θ ∧ lineTilt θ ≤ 90) := by
  refine ⟨rfl, rfl, ?_, ?_⟩
  · intro hne
    have h8 : ¬((thetas.take 8).map lineTilt).isEmpty = true := by
      simp [List.isEmpty_iff, hne]
    simp only [tilt_deg]
    rw [if_neg h8]
  · intro θ hθ
    obtain ⟨h0, h1⟩ := hr θ hθ
    obtain ⟨hd0, hd1⟩ := degOf_bounds θ h0 h1
    obtain ⟨-, hlo, hhi, -⟩ := tiltFromDeg_props (degOf θ) hd0 hd1
    exact ⟨hlo, hhi⟩

/-- Witness for C2 at a single line with θ = 0.1. -/
theorem tilt_deg_mean_witness :
    tilt_deg (some [(0.1 : ℚ)]) =
      (([(0.1 : ℚ)].take 8).map lineTilt).sum / (([(0.1 : ℚ)].take 8).map lineTilt).length
    ∧ 0 ≤ lineTilt (0.1 : ℚ) ∧ lineTilt (0.1 : ℚ) ≤ 90 := by
  have hr : ∀ θ ∈ [(0.1 : ℚ)], 0 ≤ θ ∧ θ < 3.14159 := by
    intro θ hθ
    rw [List.mem_singleton] at hθ
    subst hθ
    norm_num
  obtain ⟨-, -, h3, h4⟩ := tilt_deg_mean_of_deviations [(0.1 : ℚ)] hr
  exact ⟨h3 (by simp), h4 0.1 (by simp)⟩

/-- Shared helper: on nondecreasing clock times, every sent time is more than
0.5 s after the state's `last_sent`, and consecutive sent times are more
than 0.5 s apart. -/
theorem sentTimes_separated (ts : List ℚ) :
    ∀ s : ThrottleState, List.Pairwise (· ≤ ·) ts →
      (∀ u ∈ sentTimes s ts, s.last_sent + 0.5 < u)
      ∧ List.Pairwise (fun a b => a + 0.5 < b) (sentTimes s ts) := by
  induction ts with
  | nil => intro s _; simp [sentTimes]
  | cons t ts ih =>
    intro s hsort
    rw [List.pairwise_cons] at hsort
    obtain ⟨hhead, htail⟩ := hsort
    by_cases hc : s.channelAttached ∧ 0.5 < t - s.last_sent
    · have hstep1 : (offerStep s t).1 = true := by rw [offerStep, if_pos hc]
      have hstep2 : (offerStep s t).2 = { s with last_sent := t } := by
        rw [offerStep, if_pos hc]
      rw [sentTimes, hstep1, if_pos rfl, hstep2]
      obtain ⟨ih1, ih2⟩ := ih { s with last_sent := t } htail
      constructor
      · intro u hu
        rcases List.mem_cons.mp hu with rfl | hu
        · linarith [hc.2]
        · have := ih1 u hu
          simp only at this
          linarith [hc.2]
      · rw [List.pairwise_cons]
        refine ⟨fun u hu => ?_, ih2⟩
        have := ih1 u hu
        simpa using this
    · have hstep1 : (offerStep s t).1 = false := by rw [offerStep, if_neg hc]
      have hstep2 : (offerStep s t).2 = s := by rw [offerStep, if_neg hc]
      rw [sentTimes, hstep1, hstep2]
      simp only [Bool.false_eq_true, if_false]
      exact ih s htail

/-- Shared helper: a list whose consecutive elements are more than 0.5 apart
has at most one element in any closed window of width 0.5. -/
theorem separated_window_count (l : List ℚ)
    (h : List.Pairwise (fun a b => a + 0.5 < b) l) (t : ℚ) :
    l.countP (fun u => decide (t ≤ u ∧ u ≤ t + 0.5)) ≤ 1 := by
  induction l with
  | nil => simp
  | cons a l ih =>
    rw [List.pairwise_cons] at h
    obtain ⟨ha, hl⟩ := h
    rw [List.countP_cons]
    by_cases hp : t ≤ a ∧ a ≤ t + 0.5
    · have hz : l.countP (fun u => decide (t ≤ u ∧ u ≤ t + 0.5)) = 0 := by
        rw [List.countP_eq_zero]
        intro u hu
        have hsep := ha u hu
        simp only [decide_eq_true_eq, not_and, not_le]
        intro _
        linarith [hp.1]
      rw [hz]
      split <;> norm_num
    · have hpa : decide (t ≤ a ∧ a ≤ t + 0.5) = false := by simpa using hp
      rw [hpa]
      simpa using ih hl

/-- Shared helper: the sent times are a subsequence of the offered times — a
dropped result never reappears. -/
theorem sentTimes_sublist (ts : List ℚ) :
    ∀ s : ThrottleState, (sentTimes s ts).Sublist ts := by
  induction ts with
  | nil => intro s; simp [sentTimes]
  | cons t ts ih =>
    intro s
    rw [sentTimes]
    by_cases h : (offerStep s t).1 = true
    · rw [if_pos h]
      exact List.Sublist.cons₂ t (ih _)
    · rw [if_neg h]
      exact List.Sublist.cons t (ih _)

/-- C4: an offered result is sent exactly when the feedback channel is
attached and more than 0.5 s of clock has passed since the recorded last
send; sends are a subsequence of offers (drops are never delivered later),
consecutive sends are more than 0.5 s apart, any 0.5 s window contains at
most one send, and the 10-frames-in-0.3 s burst yields exactly one send. -/
theorem throttle_rate_limit (s : ThrottleState) (ts : List ℚ)
    (hsort : List.Pairwise (· ≤ ·) ts) :
    (∀ (s' : ThrottleState) (now : ℚ),
        (offerStep s' now).1 = true ↔
          (s'.channelAttached = true ∧ 0.5 < now - s'.last_sent))
    ∧ (sentTimes s ts).Sublist ts
    ∧ List.Pairwise (fun a b => a + 0.5 < b) (sentTimes s ts)
    ∧ (∀ t, (sentTimes s ts).countP (fun u => decide (t ≤ u ∧ u ≤ t + 0.5)) ≤ 1)
    ∧ sentTimes { last_sent := 0, channelAttached := true } burstTimes = [100] := by
  refine ⟨?_, sentTimes_sublist ts s, (sentTimes_separated ts s hsort).2,
    fun t => separated_window_count _ (sentTimes_separated ts s hsort).2 t, ?_⟩
  · intro s' now
    constructor
    · intro h
      by_contra hc
      rw [offerStep, if_neg hc] at h
      exact Bool.false_ne_true h
    · intro hc
      rw [offerStep, if_pos hc]
  · norm_num [burstTimes, sentTimes, offerStep]

/-- Witness for C4 on the concrete burst times. -/
theorem throttle_rate_limit_witness :
    List.Pairwise (fun a b : ℚ => a ≤ b) burstTimes
    ∧ List.Pairwise (fun a b : ℚ => a + 0.5 < b)
        (sentTimes { last_sent := 0, channelAttached := true } burstTimes) :=
  ⟨by norm_num [burstTimes, List.pairwise_cons],
   (throttle_rate_limit { last_sent := 0, channelAttached := true } burstTimes
      (by norm_num [burstTimes, List.pairwise_cons])).2.2.1⟩

/-- C10: the throttle comparison is strict — a result arriving exactly 0.5 s
after the previous send is dropped; because `last_sent` starts at 0, the
first frame after the channel attaches sends (for any positive-epoch clock
value above 0.5); consecutive sends are separated by strictly more than
0.5 s. -/
theorem throttle_strict_boundary :
    (∀ (s : ThrottleState) (now : ℚ),
        now - s.last_sent = 0.5 → (offerStep s now).1 = false)
    ∧ (∀ now : ℚ, 0.5 < now →
        (offerStep { last_sent := 0, channelAttached := true } now).1 = true)
    ∧ (∀ (s : ThrottleState) (ts : List ℚ), List.Pairwise (· ≤ ·) ts →
        List.Pairwise (fun a b => a + 0.5 < b) (sentTimes s ts)) := by
  refine ⟨?_, ?_, fun s ts hsort => (sentTimes_separated ts s hsort).2⟩
  · intro s now h
    rw [offerStep, if_neg]
    rintro ⟨-, hlt⟩
    rw [h] at hlt
    exact lt_irrefl _ hlt
  · intro now h
    rw [offerStep, if_pos ⟨rfl, by simpa using h⟩]

/-- Witness for C10 at concrete clock values. -/
theorem throttle_strict_boundary_witness :
    (offerStep { last_sent := 2, channelAttached := true } 2.5).1 = false
    ∧ (offerStep { last_sent := 0, channelAttached := true } 1).1 = true :=
  ⟨throttle_strict_boundary.1 { last_sent := 2, channelAttached := true } 2.5 (by norm_num),
   throttle_strict_boundary.2.1 1 (by norm_num)⟩

/-- C5: with no feedback channel ever attached, every frame is still analyzed
(one Heuristic Result per frame) and no Advisory Message is ever sent; the
run is a total function, so no error is raised. -/
theorem no_channel_no_sends (s : ThrottleState) (events : List (Frame × ℚ))
    (h : s.channelAttached = false) :
    (recvRun s events).1.length = events.length ∧ (recvRun s events).2 = [] := by
  induction events generalizing s with
  | nil => simp [recvRun]
  | cons e rest ih =>
    obtain ⟨f, t⟩ := e
    have hstep : offerStep s t = (false, s) := by
      rw [offerStep, if_neg]
      rintro ⟨h1, -⟩
      rw [h] at h1
      exact Bool.false_ne_true h1
    obtain ⟨ih1, ih2⟩ := ih s h
    rw [recvRun]
    simp only [hstep, Bool.false_eq_true, if_false, List.length_cons]
    exact ⟨by rw [ih1], ih2⟩

/-- Witness for C5 on one concrete frame with the fresh session state. -/
theorem no_channel_no_sends_witness :
    (recvRun initThrottle [(⟨[], none⟩, 100)]).1.length = 1
    ∧ (recvRun initThrottle [(⟨[], none⟩, 100)]).2 = [] :=
  no_channel_no_sends initThrottle [(⟨[], none⟩, 100)] rfl

end PhotoPal

namespace PhotoPal

/-- C6 counterexample: a malformed frame followed by a well-formed one.  The
loop aborts at the malformed frame, so the well-formed frame is never
analyzed, contradicting the claim that the loop continues with only that
frame's result dropped. -/
theorem frame_failure_not_contained :
    recvResults badThenGood = []
    ∧ badThenGood.countP RawFrame.isOk = 1
    ∧ (recvResults badThenGood).length ≠ badThenGood.countP RawFrame.isOk := by
  refine ⟨rfl, rfl, ?_⟩
  decide

/-- C6 amended: `recv_loop` has no try/except, so the first analysis failure
propagates out of the loop; every frame before it is analyzed, and no frame
after it (nor the failing frame) ever is. -/
theorem frame_failure_aborts_loop (pre post : List RawFrame)
    (h : ∀ f ∈ pre, f.isOk = true) :
    recvResults (pre ++ RawFrame.malformed :: post) = recvResults pre
    ∧ (recvResults (pre ++ RawFrame.malformed :: post)).length = pre.length := by
  induction pre with
  | nil => exact ⟨rfl, rfl⟩
  | cons f pre ih =>
    cases f with
    | malformed =>
        have := h RawFrame.malformed (List.mem_cons_self _ _)
        simp [RawFrame.isOk] at this
    | ok g =>
        obtain ⟨ih1, ih2⟩ := ih (fun f hf => h f (List.mem_cons_of_mem _ hf))
        constructor
        · show analyzeFrame g :: recvResults (pre ++ RawFrame.malformed :: post)
            = analyzeFrame g :: recvResults pre
          rw [ih1]
        · show (analyzeFrame g :: recvResults (pre ++ RawFrame.malformed :: post)).length
            = pre.length + 1
          rw [List.length_cons, ih2]

/-- Witness for the amended C6 with one good frame before and after the
malformed one. -/
theorem frame_failure_aborts_witness :
    recvResults ([RawFrame.ok ⟨[], none⟩] ++ RawFrame.malformed :: [RawFrame.ok ⟨[], none⟩])
      = recvResults [RawFrame.ok ⟨[], none⟩]
    ∧ (recvResults ([RawFrame.ok ⟨[], none⟩] ++ RawFrame.malformed :: [RawFrame.ok ⟨[], none⟩])).length
      = 1 :=
  frame_failure_aborts_loop [RawFrame.ok ⟨[], none⟩] [RawFrame.ok ⟨[], none⟩]
    (by intro f hf; rw [List.mem_singleton] at hf; subst hf; rfl)

/-- C7 counterexample: a request whose SDP `setRemoteDescription` rejects is
answered with HTTP 500, which is not a client error as the claim requires. -/
theorem malformed_offer_not_client_error :
    offerStatus ⟨false⟩ = 500 ∧ isClientError 500 = false :=
  ⟨rfl, rfl⟩

/-- C7 amended: a malformed description makes the handshake coroutine raise;
the `/offer` route has no error handling, so the failure surfaces as a 500
server error (never a client error), and no answer is produced for that
request. -/
theorem malformed_offer_server_error (req : OfferRequest)
    (h : req.sdpWellFormed = false) :
    handle_offer req = HandshakeOutcome.raised
    ∧ offerStatus req = 500
    ∧ isClientError (offerStatus req) = false := by
  obtain ⟨b⟩ := req
  subst h
  exact ⟨rfl, rfl, rfl⟩

/-- Witness for the amended C7 at the concrete malformed request. -/
theorem malformed_offer_server_error_witness :
    handle_offer ⟨false⟩ = HandshakeOutcome.raised
    ∧ offerStatus ⟨false⟩ = 500
    ∧ isClientError (offerStatus ⟨false⟩) = false :=
  malformed_offer_server_error ⟨false⟩ rfl

/-- C8 counterexample: delivering two video tracks to one session spawns two
analyzer loops — the second track is not rejected, violating the
at-most-one-loop-per-session claim. -/
theorem second_video_track_not_rejected :
    (runTracks initTracks ["video", "video"]).loops = 2
    ∧ ¬((runTracks initTracks ["video", "video"]).loops ≤ 1) := by
  refine ⟨rfl, ?_⟩
  intro h
  norm_num [runTracks, initTracks, on_track, List.foldl] at h

/-- Shared helper: `on_track` counts one loop per video track and one drained
track per non-video track, starting from any state. -/
theorem runTracks_counts (kinds : List String) :
    ∀ s : SessionTracks,
      (runTracks s kinds).loops = s.loops + kinds.countP (fun k => decide (k = "video"))
      ∧ (runTracks s kinds).drained = s.drained + kinds.countP (fun k => decide (k ≠ "video")) := by
  induction kinds with
  | nil => intro s; simp [runTracks]
  | cons k kinds ih =>
    intro s
    by_cases h : k = "video"
    · have hstep : on_track s k = { s with loops := s.loops + 1 } := by
        rw [on_track, if_neg (by simpa using h)]
      obtain ⟨ih1, ih2⟩ := ih { s with loops := s.loops + 1 }
      refine ⟨?_, ?_⟩
      · show (runTracks (on_track s k) kinds).loops = _
        rw [hstep, ih1, List.countP_cons]
        simp [h]
        omega
      · show (runTracks (on_track s k) kinds).drained = _
        rw [hstep, ih2, List.countP_cons]
        simp [h]
    · have hstep : on_track s k = { s with drained := s.drained + 1 } := by
        rw [on_track, if_pos (by simpa using h)]
      obtain ⟨ih1, ih2⟩ := ih { s with drained := s.drained + 1 }
      refine ⟨?_, ?_⟩
      · show (runTracks (on_track s k) kinds).loops = _
        rw [hstep, ih1, List.countP_cons]
        simp [h]
      · show (runTracks (on_track s k) kinds).drained = _
        rw [hstep, ih2, List.countP_cons]
        simp [h]
        omega

/-- C8 amended: no rejection happens — every video-kind track spawns its own
analyzer loop and every other track is drained, so after any track
sequence the number of loops equals the number of video tracks delivered. -/
theorem every_video_track_spawns_loop (kinds : List String) :
    (runTracks initTracks kinds).loops = kinds.countP (fun k => decide (k = "video"))
    ∧ (runTracks initTracks kinds).drained = kinds.countP (fun k => decide (k ≠ "video")) := by
  obtain ⟨h1, h2⟩ := runTracks_counts kinds initTracks
  exact ⟨by simpa [initTracks] using h1, by simpa [initTracks] using h2⟩

end PhotoPal
